import Mathlib

/-!
Verification of the shared byte-buffer core of this repository
(`src/util/native/buf.h`): the `Buf` view class and its inner
reference-counted `Alloc` block.

The embedding makes the C++ memory explicit:
* a heap maps block ids to their byte contents (`delete[]` removes a block);
* an `AllocObj` mirrors the fields of `class Alloc` (`_data`, `_len`);
* a `State` carries the heap, the live `Alloc` objects and the
  `shared_ptr` use counts;
* a `Buf` record mirrors the fields of `class Buf`
  (`_alloc`, `_data`, `_len`), with `Option` for null pointers.

Machine `uint8_t` values are `Fin 256`; the C++ `int` fields are `Int`.
-/

/-- A byte, the contents of one `uint8_t` cell. -/
abbrev Byte := Fin 256

/-- A non-null data pointer: a heap block id plus a byte offset into it
(`_data` pointers are produced by block bases and pointer addition only). -/
structure Ptr where
  block : Nat
  off : Nat
deriving DecidableEq

/-- The heap: live allocated blocks, id to contents.  `new uint8_t[n]`
adds a block, `delete[]` removes it. -/
abbrev Heap := List (Nat × List Byte)

/-- Pointer arithmetic `p + i` as used by `_data += offset` and `_data[i]`. -/
def Ptr.add (p : Ptr) (i : Int) : Ptr :=
  ⟨p.block, ((p.off : Int) + i).toNat⟩

/-- Read one byte at pointer `p` (`*p`); `none` when `p` does not point
into a live block. -/
def heapRead (h : Heap) (p : Ptr) : Option Byte :=
  (h.lookup p.block).bind (fun bytes => bytes[p.off]?)

/-- Write one byte at pointer `p` (`*p = v`); out-of-block writes leave
the heap unchanged (they are undefined behaviour in the source). -/
def heapWrite (h : Heap) (p : Ptr) (v : Byte) : Heap :=
  h.map (fun kv => if kv.1 = p.block then (kv.1, kv.2.set p.off v) else kv)

/-- The fields of `class Alloc`: `_data` (null after `detach`) and `_len`. -/
structure AllocObj where
  data : Option Ptr
  len : Int
deriving DecidableEq

/-- `Alloc::detach`: returns the current `_data` and resets the object to
`_data = NULL`, `_len = 0`, freeing nothing. -/
def AllocObj.detach (o : AllocObj) : Option Ptr × AllocObj :=
  (o.data, ⟨none, 0⟩)

/-- `Alloc::~Alloc`: `delete[] _data` — removes the pointed-to block from
the heap; `delete[]` of a null pointer is a no-op. -/
def AllocObj.destroy (o : AllocObj) (h : Heap) : Heap :=
  match o.data with
  | none => h
  | some p => h.filter (fun kv => kv.1 != p.block)

/-- The global state: the heap, the live `Alloc` objects (id to object)
and the `shared_ptr<Alloc>` use counts (id to count), plus fresh-id
counters. -/
structure State where
  heap : Heap
  allocs : List (Nat × AllocObj)
  refcnt : List (Nat × Nat)
  nextBlock : Nat
  nextAlloc : Nat
deriving DecidableEq

/-- Dereference a `shared_ptr<Alloc>` by id (dangling ids yield an inert
empty object; the claims only ever dereference live ids). -/
def State.getAlloc (s : State) (a : Nat) : AllocObj :=
  (s.allocs.lookup a).getD ⟨none, 0⟩

/-- Replace the `Alloc` object stored under id `a`. -/
def State.setAlloc (s : State) (a : Nat) (o : AllocObj) : State :=
  { s with allocs := s.allocs.map (fun kv => if kv.1 = a then (kv.1, o) else kv) }

/-- Copying a `shared_ptr<Alloc>` increments the use count of its target
(no effect for the empty pointer). -/
def State.incRef (s : State) (a : Option Nat) : State :=
  match a with
  | none => s
  | some a =>
    { s with refcnt := s.refcnt.map (fun kv => if kv.1 = a then (kv.1, kv.2 + 1) else kv) }

/-- Dropping a `shared_ptr<Alloc>` reference: decrements the use count;
when the last reference is dropped the `Alloc` is destroyed
(`~Alloc` runs `delete[] _data`) and its entries disappear. -/
def State.decRef (s : State) (a : Option Nat) : State :=
  match a with
  | none => s
  | some a =>
    let n := (s.refcnt.lookup a).getD 0
    if n ≤ 1 then
      { s with
        heap := (s.getAlloc a).destroy s.heap,
        allocs := s.allocs.filter (fun kv => kv.1 != a),
        refcnt := s.refcnt.filter (fun kv => kv.1 != a) }
    else
      { s with refcnt := s.refcnt.map (fun kv => if kv.1 = a then (kv.1, kv.2 - 1) else kv) }

/-- `new Alloc(len)` (`Alloc::Alloc(int)`): allocates a fresh block and a
fresh `Alloc` object around it with use count 1.  `bytes` stands for the
block's initial (uninitialized in C++) contents, so `len = bytes.length`. -/
def Alloc.create (s : State) (bytes : List Byte) : Nat × State :=
  let p : Ptr := ⟨s.nextBlock, 0⟩
  let a := s.nextAlloc
  (a, { heap := (s.nextBlock, bytes) :: s.heap,
        allocs := (a, ⟨some p, (bytes.length : Int)⟩) :: s.allocs,
        refcnt := (a, 1) :: s.refcnt,
        nextBlock := s.nextBlock + 1,
        nextAlloc := s.nextAlloc + 1 })

/-- The fields of `class Buf`: `_alloc` (a possibly-empty
`shared_ptr<Alloc>`, here an optional id), `_data` and `_len`. -/
structure Buf where
  alloc : Option Nat
  data : Option Ptr
  len : Int
deriving DecidableEq

/-- `Buf::init(other)`: `_alloc = other._alloc; _data = other._data;
_len = other._len`.  The `shared_ptr` assignment first takes the new
reference, then drops the one previously held by `this`. -/
def Buf.init (s : State) (this other : Buf) : Buf × State :=
  (⟨other.alloc, other.data, other.len⟩, (s.incRef other.alloc).decRef this.alloc)

/-- `Buf::Buf(const Buf&)`: the members start default-constructed
(`_alloc` empty), then `init(other)` runs. -/
def Buf.copyCtor (s : State) (other : Buf) : Buf × State :=
  Buf.init s ⟨none, none, 0⟩ other

/-- `Buf::operator=`: `init(other)` on an existing buffer `this`. -/
def Buf.assign (s : State) (this other : Buf) : Buf × State :=
  Buf.init s this other

/-- `Buf::slice(offset, len)`: clamp `offset` (first to at most `_len`,
then to at least 0), advance `_data`, shrink `_len`, then clamp the new
`_len` (first to at most `len`, then to at least 0). -/
def Buf.slice (b : Buf) (offset len : Int) : Buf :=
  let offset1 := if offset > b.len then b.len else offset
  let offset2 := if offset1 < 0 then 0 else offset1
  let data2 := b.data.map (fun p => p.add offset2)
  let len1 := b.len - offset2
  let len2 := if len1 > len then len else len1
  let len3 := if len2 < 0 then 0 else len2
  ⟨b.alloc, data2, len3⟩

/-- The effective offset `slice` skips: `offset` clamped by the source's
two tests (at most `_len`, then at least 0). -/
def clampOff (L offset : Int) : Int :=
  if (if offset > L then L else offset) < 0 then 0
  else (if offset > L then L else offset)

/-- `Buf::Buf(const Buf&, int, int)`: copy construction followed by
`slice(offset, len)`. -/
def Buf.copySliceCtor (s : State) (other : Buf) (offset len : Int) : Buf × State :=
  let bs := Buf.copyCtor s other
  (bs.1.slice offset len, bs.2)

/-- `Buf::Buf(int len)` / `Buf(int len, uint8_t fill)`: a fresh owning
buffer over a new `Alloc`; `bytes` is the block's initial contents
(`replicate len fill` for the filling constructor). -/
def Buf.mkAlloc (s : State) (bytes : List Byte) : Buf × State :=
  let res := Alloc.create s bytes
  let o := res.2.getAlloc res.1
  (⟨some res.1, o.data, o.len⟩, res.2)

/-- `Buf::Buf(void*, int)` (and the `const void*` variant): a borrowing
buffer wrapping external memory, with no `Alloc`. -/
def Buf.wrap (data : Option Ptr) (len : Int) : Buf :=
  ⟨none, data, len⟩

/-- `Buf::reset()`: `_data = _alloc->data(); _len = _alloc->length()`.
Reading through an empty `_alloc` is undefined behaviour in the source;
the embedding leaves such a buffer unchanged. -/
def Buf.reset (s : State) (b : Buf) : Buf :=
  match b.alloc with
  | none => b
  | some al => ⟨b.alloc, (s.getAlloc al).data, (s.getAlloc al).len⟩

/-- `Buf::detach_alloc()`: `return _alloc->detach();` — mutates only the
shared `Alloc` object, touching neither `_data` nor `_len` of the buffer.
Returns (result, the buffer, the new state). -/
def Buf.detach_alloc (s : State) (b : Buf) : Option Ptr × Buf × State :=
  match b.alloc with
  | none => (none, b, s)
  | some al =>
    let d := (s.getAlloc al).detach
    (d.1, b, s.setAlloc al d.2)

/-- `Buf::unique_alloc()`: `_alloc.unique()`, i.e. the use count is
exactly 1; an empty `shared_ptr` has use count 0 and is not unique. -/
def Buf.unique_alloc (s : State) (b : Buf) : Bool :=
  match b.alloc with
  | none => false
  | some al => ((s.refcnt.lookup al).getD 0) == 1

/-- `Buf::operator[](i) = v`: write byte `i` of the current view. -/
def Buf.setByte (s : State) (b : Buf) (i : Int) (v : Byte) : State :=
  match b.data with
  | none => s
  | some p => { s with heap := heapWrite s.heap (p.add i) v }

/-- Read `Buf::operator[](i)`: byte `i` of the current view. -/
def Buf.getByte (s : State) (b : Buf) (i : Int) : Option Byte :=
  b.data.bind (fun p => heapRead s.heap (p.add i))

/-- The bytes `memcmp(_data, ·, _len)` inspects: the first `n` cells
reachable from pointer `p`. -/
def readBytes (s : State) (p : Option Ptr) (n : Nat) : List (Option Byte) :=
  (List.range n).map (fun i => p.bind (fun q => heapRead s.heap ⟨q.block, q.off + i⟩))

/-- `Buf::same(buf)`: `_len == buf._len && 0 == memcmp(_data, buf._data, _len)`. -/
def Buf.same (s : State) (a b : Buf) : Bool :=
  (a.len == b.len) && (readBytes s a.data a.len.toNat == readBytes s b.data b.len.toNat)

/-- The byte-copying loop of the concat constructor
`Buf::Buf(int len, Iter begin, Iter end)`: while `len > 0`, assert that
sources remain (`none` models the `assert(begin != end)` failure), copy
`min(len, begin->length())` bytes from the current source, advance.
Returns the bytes written into the fresh allocation. -/
def concatCopy : Int → List (List Byte) → Option (List Byte)
  | len, srcs =>
    if len ≤ 0 then some []
    else
      match srcs with
      | [] => none
      | s :: rest =>
        let now := min len (s.length : Int)
        (concatCopy (len - now) rest).map (fun tail => s.take now.toNat ++ tail)

/-- Modelled from the spec: the static table `BYTE_TO_HEX` (declared in
`buf.h` but defined outside `src/`) maps a byte to its fixed
two-character lowercase hexadecimal representation. -/
def byteToHex (b : Byte) : String :=
  let hexChar : Nat → Char := fun n =>
    if n < 10 then Char.ofNat (48 + n) else Char.ofNat (97 + (n - 10))
  String.mk [hexChar (b.val / 16), hexChar (b.val % 16)]

/-- `Buf::hex()`: fold `str += BYTE_TO_HEX[_data[i]]` over the view's
bytes in order. -/
def bufHex (view : List Byte) : String :=
  view.foldl (fun str b => str ++ byteToHex b) ""

/-- The empty starting state used by the concrete witnesses. -/
def s0 : State := ⟨[], [], [], 0, 0⟩

/-- A fresh owning three-byte buffer (with its state), for witnesses. -/
def demoMk : Buf × State := Buf.mkAlloc s0 [1, 2, 3]

theorem string_length_append (s t : String) : (s ++ t).length = s.length + t.length := by
  cases s with
  | mk a =>
    cases t with
    | mk b => exact List.length_append a b

theorem byteToHex_length (b : Byte) : (byteToHex b).length = 2 := rfl

theorem bufHex_foldl_length (l : List Byte) (s : String) :
    (l.foldl (fun str b => str ++ byteToHex b) s).length = s.length + 2 * l.length := by
  induction l generalizing s with
  | nil => simp
  | cons b t ih =>
    simp only [List.foldl_cons, ih, string_length_append, byteToHex_length, List.length_cons]
    omega

/-- C9: `hex()` produces a lowercase hexadecimal string of exactly two
characters per byte of the current view, in view order with no
separators; on the bytes `[0x00, 0xFF, 0x10]` it produces "00ff10". -/
theorem hex_two_chars_per_byte :
    bufHex [0x00, 0xFF, 0x10] = "00ff10" ∧
    ∀ view : List Byte, (bufHex view).length = 2 * view.length := by
  refine ⟨by decide, fun view => ?_⟩
  have h := bufHex_foldl_length view ""
  simpa [bufHex] using h

theorem concatCopy_none_iff (len : Int) (srcs : List (List Byte)) :
    concatCopy len srcs = none ↔ ((srcs.flatten.length : Int) < len) := by
  induction srcs generalizing len with
  | nil =>
    rw [concatCopy]
    by_cases h : len ≤ 0
    · simp only [if_pos h, List.flatten_nil, List.length_nil, Nat.cast_zero]
      constructor
      · intro hc; exact absurd hc (by simp)
      · intro hc; omega
    · simp only [if_neg h, List.flatten_nil, List.length_nil, Nat.cast_zero]
      constructor
      · intro _; omega
      · intro _; trivial
  | cons s rest ih =>
    rw [concatCopy]
    by_cases h : len ≤ 0
    · simp only [if_pos h, List.flatten_cons, List.length_append, Nat.cast_add]
      constructor
      · intro hc; exact absurd hc (by simp)
      · intro hc; omega
    · simp only [if_neg h, Option.map_eq_none', ih, List.flatten_cons,
        List.length_append, Nat.cast_add]
      omega

/-- C3 counterexample: with sources `[0x01,0x02]` and `[0x03]` and a
declared total length 2 — which differs from the sources' total byte
count 3 — the concat constructor does not fail its assertion: it
succeeds and copies the first two bytes. -/
theorem concat_mismatch_not_fatal :
    concatCopy 2 [[0x01, 0x02], [0x03]] = some [0x01, 0x02] ∧
    concatCopy 2 [[0x01, 0x02], [0x03]] ≠ none := by decide

/-- C3 (amended): with declared total length 3 the concat constructor
produces `[0x01,0x02,0x03]`; construction fails the
`assert(begin != end)` contract check precisely when the declared total
length exceeds the sources' total byte count; a smaller declared total
(for example 2 with the same sources) succeeds, copying a prefix. -/
theorem concat_exact_and_violation :
    concatCopy 3 [[0x01, 0x02], [0x03]] = some [0x01, 0x02, 0x03] ∧
    concatCopy 2 [[0x01, 0x02], [0x03]] = some [0x01, 0x02] ∧
    ∀ (len : Int) (srcs : List (List Byte)),
      concatCopy len srcs = none ↔ ((srcs.flatten.length : Int) < len) :=
  ⟨by decide, by decide, concatCopy_none_iff⟩

theorem buf_ext (x y : Buf) (h1 : x.alloc = y.alloc) (h2 : x.data = y.data)
    (h3 : x.len = y.len) : x = y := by
  cases x; cases y; cases h1; cases h2; cases h3; rfl

theorem slice_alloc (b : Buf) (offset len : Int) :
    (b.slice offset len).alloc = b.alloc := rfl

theorem slice_data (b : Buf) (offset len : Int) :
    (b.slice offset len).data = b.data.map (fun p => p.add (clampOff b.len offset)) := rfl

theorem slice_len (b : Buf) (offset len : Int) :
    (b.slice offset len).len =
      if (if b.len - clampOff b.len offset > len then len
          else b.len - clampOff b.len offset) < 0 then 0
      else (if b.len - clampOff b.len offset > len then len
            else b.len - clampOff b.len offset) := rfl

/-- C2 counterexample: with a view of length 5, `slice(0, -1)` yields
length 0, which exceeds `min(len, L - clamp(offset)) = min(-1, 5) = -1`:
the claimed bound fails for a negative requested length. -/
theorem slice_bound_counterexample :
    ¬ (((Buf.mk none (some ⟨0, 0⟩) 5).slice 0 (-1)).len ≤
        min (-1) (5 - clampOff 5 0)) := by decide

/-- C2 (amended): `slice` is total (never fails): a negative offset
behaves exactly as offset 0; an offset above the current length yields a
zero-length view; for a view of nonnegative length and a nonnegative
requested length the resulting length never exceeds
`min(len, L - clamp(offset))`; a negative requested length yields a
zero-length view (0 exceeds the negative bound `min(len, ·)`). -/
theorem slice_clamps (b : Buf) (offset len : Int) :
    (offset ≤ 0 → b.slice offset len = b.slice 0 len) ∧
    (offset > b.len → (b.slice offset len).len = 0) ∧
    (0 ≤ b.len → 0 ≤ len →
      (b.slice offset len).len ≤ min len (b.len - clampOff b.len offset)) ∧
    (len < 0 → (b.slice offset len).len = 0) := by
  refine ⟨?_, ?_, ?_, ?_⟩
  · intro h
    rcases lt_or_eq_of_le h with hlt | heq
    · have hco : clampOff b.len offset = clampOff b.len 0 := by
        unfold clampOff; split_ifs <;> omega
      refine buf_ext _ _ rfl ?_ ?_
      · rw [slice_data, slice_data, hco]
      · rw [slice_len, slice_len, hco]
    · rw [heq]
  · intro h
    rw [slice_len]
    unfold clampOff
    split_ifs <;> omega
  · intro hL hlen
    rw [slice_len]
    unfold clampOff
    split_ifs <;> omega
  · intro h
    rw [slice_len]
    split_ifs <;> omega

/-- Witness for C2 at a concrete view of length 5 with data pointer
block 0 offset 0 and offsets -2, 7, 2. -/
theorem slice_clamps_witness :
    ((Buf.mk none (some ⟨0, 0⟩) 5).slice (-2) 3 =
      (Buf.mk none (some ⟨0, 0⟩) 5).slice 0 3) ∧
    ((Buf.mk none (some ⟨0, 0⟩) 5).slice 7 3).len = 0 ∧
    ((Buf.mk none (some ⟨0, 0⟩) 5).slice 2 9).len ≤
      min 9 (5 - clampOff 5 2) ∧
    ((Buf.mk none (some ⟨0, 0⟩) 5).slice 2 (-1)).len = 0 :=
  ⟨(slice_clamps (Buf.mk none (some ⟨0, 0⟩) 5) (-2) 3).1 (by decide),
   (slice_clamps (Buf.mk none (some ⟨0, 0⟩) 5) 7 3).2.1 (by decide),
   (slice_clamps (Buf.mk none (some ⟨0, 0⟩) 5) 2 9).2.2.1 (by decide) (by decide),
   (slice_clamps (Buf.mk none (some ⟨0, 0⟩) 5) 2 (-1)).2.2.2 (by decide)⟩

theorem lookup_map_adjust {β : Type} (l : List (Nat × β)) (a : Nat) (f : Nat × β → β) :
    (l.map (fun kv => if kv.1 = a then (kv.1, f kv) else kv)).lookup a =
      (l.lookup a).map (fun b => f (a, b)) := by
  induction l with
  | nil => rfl
  | cons kv t ih =>
    obtain ⟨k, b⟩ := kv
    by_cases h : k = a
    · subst h
      simp only [List.map_cons, if_pos rfl]
      simp [List.lookup]
    · have hba : (a == k) = false := by simp [Ne.symm h]
      simp only [List.map_cons, if_neg h]
      simp [List.lookup, hba, ih]

theorem heapRead_heapWrite (h : Heap) (p : Ptr) (v : Byte) (bytes : List Byte)
    (hl : h.lookup p.block = some bytes) (hoff : p.off < bytes.length) :
    heapRead (heapWrite h p v) p = some v := by
  unfold heapRead heapWrite
  rw [lookup_map_adjust, hl]
  simp [List.getElem?_set_eq_of_lt v hoff]

theorem incRef_heap (s : State) (x : Option Nat) : (s.incRef x).heap = s.heap := by
  cases x <;> rfl

theorem clampOff_nonneg (L offset : Int) : 0 ≤ clampOff L offset := by
  unfold clampOff; split_ifs <;> omega

theorem ptr_add_add (p : Ptr) (x y : Int) (hx : 0 ≤ x) (hy : 0 ≤ y) :
    (p.add x).add y = p.add (x + y) := by
  obtain ⟨pb, po⟩ := p
  dsimp only [Ptr.add]
  congr 1
  omega

/-- C1: a buffer made by copy or copy-with-slice from an owning buffer
shares the source's Allocation handle — the heap is unchanged, no bytes
are duplicated — so a byte written through one view at a position inside
the overlap of the two views (`a`-index `i` and sliced-copy index `j`
address the same cell) is read back through the other view. -/
theorem copy_shares_allocation (s : State) (a : Buf) (al : Nat)
    (offset len i j : Int) (v : Byte) (pa : Ptr) (bytes : List Byte)
    (hown : a.alloc = some al)
    (hd : a.data = some pa)
    (hblk : s.heap.lookup pa.block = some bytes)
    (hi : 0 ≤ i)
    (hib : pa.off + i.toNat < bytes.length)
    (hij : i = clampOff a.len offset + j)
    (hj : 0 ≤ j)
    (_hjlen : j < (Buf.copySliceCtor s a offset len).1.len) :
    ((Buf.copyCtor s a).1.alloc = some al ∧ (Buf.copyCtor s a).2.heap = s.heap) ∧
    ((Buf.copySliceCtor s a offset len).1.alloc = some al ∧
      (Buf.copySliceCtor s a offset len).2.heap = s.heap) ∧
    Buf.getByte (Buf.setByte (Buf.copyCtor s a).2 a i v) (Buf.copyCtor s a).1 i
      = some v ∧
    Buf.getByte (Buf.setByte (Buf.copySliceCtor s a offset len).2 a i v)
      (Buf.copySliceCtor s a offset len).1 j = some v ∧
    Buf.getByte (Buf.setByte (Buf.copyCtor s a).2 (Buf.copyCtor s a).1 i v) a i
      = some v ∧
    Buf.getByte (Buf.setByte (Buf.copySliceCtor s a offset len).2
      (Buf.copySliceCtor s a offset len).1 j v) a i = some v := by
  have hco : 0 ≤ clampOff a.len offset := clampOff_nonneg a.len offset
  have hoff : (pa.add i).off < bytes.length := by
    show ((pa.off : Int) + i).toNat < bytes.length
    omega
  have halloc1 : (Buf.copyCtor s a).1.alloc = some al := hown
  have hfd : (Buf.copyCtor s a).1.data = some pa := hd
  have hheap1 : (Buf.copyCtor s a).2.heap = s.heap := by
    show (s.incRef a.alloc).heap = s.heap
    exact incRef_heap s a.alloc
  have hheap2 : (Buf.copySliceCtor s a offset len).2.heap = s.heap := hheap1
  have hwrite : ∀ s1 : State, s1.heap = s.heap →
      (Buf.setByte s1 a i v).heap = heapWrite s.heap (pa.add i) v := by
    intro s1 hs1
    unfold Buf.setByte
    rw [hd]
    show heapWrite s1.heap (pa.add i) v = heapWrite s.heap (pa.add i) v
    rw [hs1]
  have hfd2 : (Buf.copySliceCtor s a offset len).1.data
      = some (pa.add (clampOff a.len offset)) := by
    show ((Buf.copyCtor s a).1.slice offset len).data = _
    rw [slice_data, hfd]
    rfl
  refine ⟨⟨halloc1, hheap1⟩, ?_, ?_, ?_, ?_, ?_⟩
  · refine ⟨?_, hheap2⟩
    show ((Buf.copyCtor s a).1.slice offset len).alloc = some al
    rw [slice_alloc]
    exact halloc1
  · unfold Buf.getByte
    rw [hfd, Option.some_bind, hwrite _ hheap1]
    exact heapRead_heapWrite s.heap (pa.add i) v bytes hblk hoff
  · unfold Buf.getByte
    rw [hfd2, Option.some_bind, ptr_add_add pa _ j hco hj, ← hij, hwrite _ hheap2]
    exact heapRead_heapWrite s.heap (pa.add i) v bytes hblk hoff
  · unfold Buf.getByte
    rw [hd, Option.some_bind]
    have hw : (Buf.setByte (Buf.copyCtor s a).2 (Buf.copyCtor s a).1 i v).heap
        = heapWrite s.heap (pa.add i) v := by
      unfold Buf.setByte
      rw [hfd]
      show heapWrite (Buf.copyCtor s a).2.heap (pa.add i) v = _
      rw [hheap1]
    rw [hw]
    exact heapRead_heapWrite s.heap (pa.add i) v bytes hblk hoff
  · unfold Buf.getByte
    rw [hd, Option.some_bind]
    have hw : (Buf.setByte (Buf.copySliceCtor s a offset len).2
          (Buf.copySliceCtor s a offset len).1 j v).heap
        = heapWrite s.heap (pa.add i) v := by
      unfold Buf.setByte
      rw [hfd2]
      show heapWrite (Buf.copySliceCtor s a offset len).2.heap
        ((pa.add (clampOff a.len offset)).add j) v = _
      rw [hheap2, ptr_add_add pa _ j hco hj, ← hij]
    rw [hw]
    exact heapRead_heapWrite s.heap (pa.add i) v bytes hblk hoff

/-- Witness for C1: a fresh 3-byte owning buffer, its plain copy and its
slice-copy (offset 1, length 2); writing 99 at source index 2 is read
back through the copy at index 2 and through the slice at index 1. -/
theorem copy_shares_allocation_witness :
    ((Buf.copyCtor demoMk.2 demoMk.1).1.alloc = some 0 ∧
      (Buf.copyCtor demoMk.2 demoMk.1).2.heap = demoMk.2.heap) ∧
    ((Buf.copySliceCtor demoMk.2 demoMk.1 1 2).1.alloc = some 0 ∧
      (Buf.copySliceCtor demoMk.2 demoMk.1 1 2).2.heap = demoMk.2.heap) ∧
    Buf.getByte (Buf.setByte (Buf.copyCtor demoMk.2 demoMk.1).2 demoMk.1 2 99)
      (Buf.copyCtor demoMk.2 demoMk.1).1 2 = some 99 ∧
    Buf.getByte (Buf.setByte (Buf.copySliceCtor demoMk.2 demoMk.1 1 2).2 demoMk.1 2 99)
      (Buf.copySliceCtor demoMk.2 demoMk.1 1 2).1 1 = some 99 ∧
    Buf.getByte (Buf.setByte (Buf.copyCtor demoMk.2 demoMk.1).2
      (Buf.copyCtor demoMk.2 demoMk.1).1 2 99) demoMk.1 2 = some 99 ∧
    Buf.getByte (Buf.setByte (Buf.copySliceCtor demoMk.2 demoMk.1 1 2).2
      (Buf.copySliceCtor demoMk.2 demoMk.1 1 2).1 1 99) demoMk.1 2 = some 99 :=
  copy_shares_allocation demoMk.2 demoMk.1 0 1 2 2 1 99 ⟨0, 0⟩ [1, 2, 3]
    (by decide) (by decide) (by decide) (by decide) (by decide) (by decide)
    (by decide) (by decide)

theorem lookup_cons_self {β : Type} (a : Nat) (x : β) (t : List (Nat × β)) :
    ((a, x) :: t).lookup a = some x := by
  simp [List.lookup]

theorem getAlloc_setAlloc (s : State) (a : Nat) (o : AllocObj) :
    (s.setAlloc a o).getAlloc a
      = ((s.allocs.lookup a).map (fun _ => o)).getD ⟨none, 0⟩ := by
  unfold State.getAlloc State.setAlloc
  rw [lookup_map_adjust]

/-- C4: `detach` returns the held pointer and leaves the Allocation with
null data and length 0; the call leaves the heap bytes untouched (the
state-level `detach_alloc` keeps the heap identical), and running the
destructor on a detached Allocation frees nothing. -/
theorem detach_returns_and_empties (o : AllocObj) (p : Ptr) (h : Heap)
    (s : State) (b : Buf) (hp : o.data = some p) :
    (o.detach).1 = some p ∧
    (o.detach).2.data = none ∧
    (o.detach).2.len = 0 ∧
    AllocObj.destroy (o.detach).2 h = h ∧
    (Buf.detach_alloc s b).2.2.heap = s.heap := by
  refine ⟨hp, rfl, rfl, rfl, ?_⟩
  obtain ⟨balloc, bdata, blen⟩ := b
  cases balloc <;> rfl

/-- Witness for C4 at a concrete Allocation over block 0 holding three
bytes, with the demo state and buffer. -/
theorem detach_returns_and_empties_witness :
    ((AllocObj.mk (some ⟨0, 0⟩) 3).detach).1 = some ⟨0, 0⟩ ∧
    ((AllocObj.mk (some ⟨0, 0⟩) 3).detach).2.data = none ∧
    ((AllocObj.mk (some ⟨0, 0⟩) 3).detach).2.len = 0 ∧
    AllocObj.destroy ((AllocObj.mk (some ⟨0, 0⟩) 3).detach).2 [(0, [1, 2, 3])]
      = [(0, [1, 2, 3])] ∧
    (Buf.detach_alloc demoMk.2 demoMk.1).2.2.heap = demoMk.2.heap :=
  detach_returns_and_empties (AllocObj.mk (some ⟨0, 0⟩) 3) ⟨0, 0⟩
    [(0, [1, 2, 3])] demoMk.2 demoMk.1 (by decide)

/-- C8: assignment produces exactly the buffer state (allocation handle,
data pointer, length) that copy construction from the same source
produces. -/
theorem assign_eq_copy_construct (s : State) (a b : Buf) :
    (Buf.assign s a b).1 = (Buf.copyCtor s b).1 := rfl

/-- C10: `detach_alloc` returns the Allocation's pointer and changes only
the shared Allocation (its data becomes null and its length 0) and
nothing else: the calling buffer record — its `_data` and `_len` — and
the heap and use counts are all left unchanged. -/
theorem detach_alloc_frame (s : State) (b : Buf) (al : Nat)
    (hown : b.alloc = some al) :
    (Buf.detach_alloc s b).2.1 = b ∧
    (Buf.detach_alloc s b).1 = (s.getAlloc al).data ∧
    ((Buf.detach_alloc s b).2.2.getAlloc al).data = none ∧
    ((Buf.detach_alloc s b).2.2.getAlloc al).len = 0 ∧
    (Buf.detach_alloc s b).2.2.heap = s.heap ∧
    (Buf.detach_alloc s b).2.2.refcnt = s.refcnt := by
  have h1 : Buf.detach_alloc s b
      = ((s.getAlloc al).data, b, s.setAlloc al ⟨none, 0⟩) := by
    unfold Buf.detach_alloc
    rw [hown]
    rfl
  refine ⟨by rw [h1], by rw [h1], ?_, ?_, by rw [h1]; rfl, by rw [h1]; rfl⟩
  · rw [h1]
    show ((s.setAlloc al ⟨none, 0⟩).getAlloc al).data = none
    rw [getAlloc_setAlloc]
    rcases s.allocs.lookup al with _ | o <;> rfl
  · rw [h1]
    show ((s.setAlloc al ⟨none, 0⟩).getAlloc al).len = 0
    rw [getAlloc_setAlloc]
    rcases s.allocs.lookup al with _ | o <;> rfl

/-- Witness for C10 on the demo owning buffer. -/
theorem detach_alloc_frame_witness :
    (Buf.detach_alloc demoMk.2 demoMk.1).2.1 = demoMk.1 ∧
    (Buf.detach_alloc demoMk.2 demoMk.1).1 = (demoMk.2.getAlloc 0).data ∧
    ((Buf.detach_alloc demoMk.2 demoMk.1).2.2.getAlloc 0).data = none ∧
    ((Buf.detach_alloc demoMk.2 demoMk.1).2.2.getAlloc 0).len = 0 ∧
    (Buf.detach_alloc demoMk.2 demoMk.1).2.2.heap = demoMk.2.heap ∧
    (Buf.detach_alloc demoMk.2 demoMk.1).2.2.refcnt = demoMk.2.refcnt :=
  detach_alloc_frame demoMk.2 demoMk.1 0 (by decide)

/-- C5: `same` is true iff the lengths are equal and the bytes read
through the two views coincide; it is reflexive and symmetric, and
buffers differing in length or in view bytes compare false. -/
theorem same_iff_view_bytes (s : State) (a b : Buf) :
    (Buf.same s a b = true ↔
      (a.len = b.len ∧
        readBytes s a.data a.len.toNat = readBytes s b.data b.len.toNat)) ∧
    Buf.same s a a = true ∧
    Buf.same s a b = Buf.same s b a ∧
    (a.len ≠ b.len → Buf.same s a b = false) ∧
    (readBytes s a.data a.len.toNat ≠ readBytes s b.data b.len.toNat →
      Buf.same s a b = false) := by
  have hiff : ∀ x y : Buf, Buf.same s x y = true ↔
      (x.len = y.len ∧
        readBytes s x.data x.len.toNat = readBytes s y.data y.len.toNat) := by
    intro x y
    simp [Buf.same]
  refine ⟨hiff a b, by simp [Buf.same], ?_, ?_, ?_⟩
  · rw [Bool.eq_iff_iff, hiff a b, hiff b a]
    constructor
    · rintro ⟨h1, h2⟩; exact ⟨h1.symm, h2.symm⟩
    · rintro ⟨h1, h2⟩; exact ⟨h1.symm, h2.symm⟩
  · intro hne
    cases hsame : Buf.same s a b with
    | false => rfl
    | true => exact absurd ((hiff a b).mp hsame).1 hne
  · intro hne
    cases hsame : Buf.same s a b with
    | false => rfl
    | true => exact absurd ((hiff a b).mp hsame).2 hne

/-- Witness for C5: in the demo state, the 3-byte view at block 0 equals
itself; against a 2-byte view it compares false (length differs); two
2-byte views with different bytes compare false. -/
theorem same_iff_view_bytes_witness :
    Buf.same demoMk.2 (Buf.wrap (some ⟨0, 0⟩) 3) (Buf.wrap (some ⟨0, 0⟩) 3) = true ∧
    Buf.same demoMk.2 (Buf.wrap (some ⟨0, 0⟩) 3) (Buf.wrap (some ⟨0, 1⟩) 2) = false ∧
    Buf.same demoMk.2 (Buf.wrap (some ⟨0, 0⟩) 2) (Buf.wrap (some ⟨0, 1⟩) 2) = false :=
  ⟨(same_iff_view_bytes demoMk.2 (Buf.wrap (some ⟨0, 0⟩) 3)
      (Buf.wrap (some ⟨0, 0⟩) 3)).2.1,
   (same_iff_view_bytes demoMk.2 (Buf.wrap (some ⟨0, 0⟩) 3)
      (Buf.wrap (some ⟨0, 1⟩) 2)).2.2.2.1 (by decide),
   (same_iff_view_bytes demoMk.2 (Buf.wrap (some ⟨0, 0⟩) 2)
      (Buf.wrap (some ⟨0, 1⟩) 2)).2.2.2.2 (by decide)⟩

/-- C6: for an owning buffer, any sequence of `slice` calls followed by
`reset` gives the same view as `reset` alone, and `reset` restores the
view to the shared Allocation's full current pointer and length. -/
theorem reset_restores_full_extent (s : State) (b : Buf) (al : Nat)
    (ops : List (Int × Int)) (hown : b.alloc = some al) :
    Buf.reset s (ops.foldl (fun c op => c.slice op.1 op.2) b) = Buf.reset s b ∧
    (Buf.reset s b).data = (s.getAlloc al).data ∧
    (Buf.reset s b).len = (s.getAlloc al).len := by
  have halloc : ∀ c : Buf, (ops.foldl (fun c op => c.slice op.1 op.2) c).alloc = c.alloc := by
    induction ops with
    | nil => intro c; rfl
    | cons op t ih =>
      intro c
      simp only [List.foldl_cons]
      rw [ih (c.slice op.1 op.2), slice_alloc]
  have hreset : ∀ c : Buf, c.alloc = some al →
      Buf.reset s c = ⟨some al, (s.getAlloc al).data, (s.getAlloc al).len⟩ := by
    intro c hc
    unfold Buf.reset
    rw [hc]
  refine ⟨?_, ?_, ?_⟩
  · rw [hreset _ (by rw [halloc b, hown]), hreset b hown]
  · rw [hreset b hown]
  · rw [hreset b hown]

/-- Witness for C6: the demo owning buffer, sliced to (1,1) and reset,
equals the buffer reset directly, at the allocation's full extent. -/
theorem reset_restores_full_extent_witness :
    Buf.reset demoMk.2
        (([((1 : Int), (1 : Int))]).foldl (fun c op => c.slice op.1 op.2) demoMk.1)
      = Buf.reset demoMk.2 demoMk.1 ∧
    (Buf.reset demoMk.2 demoMk.1).data = (demoMk.2.getAlloc 0).data ∧
    (Buf.reset demoMk.2 demoMk.1).len = (demoMk.2.getAlloc 0).len :=
  reset_restores_full_extent demoMk.2 demoMk.1 0 [(1, 1)] (by decide)

/-- C7: `unique_alloc` is true on a freshly constructed owning buffer,
false on it (and on the copy) right after a copy is constructed, and
false on every borrowing buffer (no Allocation). -/
theorem unique_alloc_tracking (s : State) (bytes : List Byte)
    (p : Option Ptr) (n : Int) :
    Buf.unique_alloc (Buf.mkAlloc s bytes).2 (Buf.mkAlloc s bytes).1 = true ∧
    Buf.unique_alloc (Buf.copyCtor (Buf.mkAlloc s bytes).2 (Buf.mkAlloc s bytes).1).2
      (Buf.mkAlloc s bytes).1 = false ∧
    Buf.unique_alloc (Buf.copyCtor (Buf.mkAlloc s bytes).2 (Buf.mkAlloc s bytes).1).2
      (Buf.copyCtor (Buf.mkAlloc s bytes).2 (Buf.mkAlloc s bytes).1).1 = false ∧
    Buf.unique_alloc s (Buf.wrap p n) = false := by
  have h1 : Buf.unique_alloc (Buf.mkAlloc s bytes).2 (Buf.mkAlloc s bytes).1
      = ((((s.nextAlloc, 1) :: s.refcnt).lookup s.nextAlloc).getD 0 == 1) := rfl
  have h2 : Buf.unique_alloc
        (Buf.copyCtor (Buf.mkAlloc s bytes).2 (Buf.mkAlloc s bytes).1).2
        (Buf.mkAlloc s bytes).1
      = (((((s.nextAlloc, 1) :: s.refcnt).map
            (fun kv => if kv.1 = s.nextAlloc then (kv.1, kv.2 + 1) else kv)).lookup
              s.nextAlloc).getD 0 == 1) := rfl
  have h3 : Buf.unique_alloc
        (Buf.copyCtor (Buf.mkAlloc s bytes).2 (Buf.mkAlloc s bytes).1).2
        (Buf.copyCtor (Buf.mkAlloc s bytes).2 (Buf.mkAlloc s bytes).1).1
      = (((((s.nextAlloc, 1) :: s.refcnt).map
            (fun kv => if kv.1 = s.nextAlloc then (kv.1, kv.2 + 1) else kv)).lookup
              s.nextAlloc).getD 0 == 1) := rfl
  refine ⟨?_, ?_, ?_, rfl⟩
  · rw [h1, lookup_cons_self]; rfl
  · rw [h2, lookup_map_adjust, lookup_cons_self]; rfl
  · rw [h3, lookup_map_adjust, lookup_cons_self]; rfl
